import Mathlib

/-!
Shallow embedding of `src/assgn-1.ts`: a personal reminder tracker built
around a `ReminderDatabase` class that owns a JavaScript `Map` from 8-digit
string ids to `Reminder` records, persisted as the JSON serialization of
`Array.from(map.entries())` in a single file.

Modelling decisions, each tied to the source:
* The JS `Map<string, Reminder>` is embedded as an association list
  `List (String × Reminder)` with JS `Map` semantics: `set` on an existing
  key overwrites in place (keeping the original insertion position), `set`
  on a fresh key appends, `values()` iterates in insertion order,
  `delete` removes the keyed entry.
* `Math.floor(10000000 + Math.random() * 90000000)` is embedded by taking
  the sequence of values `Math.floor(Math.random() * 90000000)` as an
  explicit list of naturals `draws`; each candidate id is
  `Nat.repr (10000000 + r)`, matching `.toString()` in the source. The
  `do … while` retry loop consumes the list and returns `none` when it is
  exhausted (the real loop would keep drawing).
* The backing file is embedded as `Option (List (String × Reminder))`:
  `none` is "file absent", `some entries` is the file holding the JSON
  text of that entries array. JSON encoding of an array of
  `[id, {id, message, time, completed}]` pairs is injective and is read
  back as the same pairs by `fs.readJsonSync`, so the file is modelled by
  the entries list itself; the JSON spacing is incidental I/O mechanics.
* `moment(time).isSameOrBefore(today, "day")` compares calendar dates at
  day granularity and yields `false` when `moment(time)` is invalid. It is
  embedded as a parameter `parse : String → Option CalDate` (the moment
  parser, `none` for an invalid date) together with the day-granularity
  order `dateLe`; `moment().format("YYYY-MM-DD")` (the current local
  date) is the parameter `today`. `parseYMD` is a concrete instance of
  `parse` for the documented `YYYY-MM-DD HH:mm` inputs, which moment
  parses as ISO dates.
-/

/-- `interface Reminder` from the source. -/
structure Reminder where
  id : String
  message : String
  time : String
  completed : Bool
deriving DecidableEq, Repr

/-- The in-memory `Map<string, Reminder>` as an insertion-ordered association list. -/
abbrev Store := List (String × Reminder)

/-- JS `map.has(k)`. -/
def mapHas (m : Store) (k : String) : Bool :=
  m.any (fun p => p.1 == k)

/-- JS `map.get(k)` (`none` models `undefined`). -/
def mapGet (m : Store) (k : String) : Option Reminder :=
  (m.find? (fun p => p.1 == k)).map Prod.snd

/-- JS `map.set(k, v)`: overwrite in place if the key exists, else append. -/
def mapSet (m : Store) (k : String) (v : Reminder) : Store :=
  if mapHas m k then m.map (fun p => if p.1 == k then (p.1, v) else p)
  else m ++ [(k, v)]

/-- JS `map.delete(k)` (the resulting map; the returned boolean is `mapHas m k`). -/
def mapDelete (m : Store) (k : String) : Store :=
  m.filter (fun p => !(p.1 == k))

/-- Mutating the record object stored under key `k` in place
(`map.get(k)!.field = …`), as done by mark/unmark/update in the source. -/
def mapModify (m : Store) (k : String) (f : Reminder → Reminder) : Store :=
  m.map (fun p => if p.1 == k then (p.1, f p.2) else p)

/-- JS `[...map.values()]` in insertion order. -/
def mapValues (m : Store) : List Reminder :=
  m.map Prod.snd

/-- The `ReminderDatabase` object together with the content of its one backing
file (`none` = the file does not exist). -/
structure ReminderDatabase where
  reminders : Store
  file : Option Store
deriving DecidableEq, Repr

/-- `saveToFile`: `fs.writeJsonSync(filename, Array.from(reminders.entries()))`. -/
def saveToFile (s : ReminderDatabase) : ReminderDatabase :=
  { s with file := some s.reminders }

/-- `new Map(data)`: insert the serialized pairs in order. -/
def mapOfEntries (data : List (String × Reminder)) : Store :=
  data.foldl (fun m p => mapSet m p.1 p.2) []

/-- `loadFromFile`: read the entries array back if the file exists, else keep
the empty map. -/
def loadFromFile (file : Option Store) : Store :=
  match file with
  | none => []
  | some data => mapOfEntries data

/-- The constructor `new ReminderDatabase(filename)` run against a file with
the given content: start empty, then `loadFromFile`. -/
def restart (file : Option Store) : ReminderDatabase :=
  { reminders := loadFromFile file, file := file }

/-- `generateUniqueId`: `do { id = Math.floor(10000000 + Math.random() * 90000000).toString() }
while (reminders.has(id))`, with the random draws supplied as the list of
values `Math.floor(Math.random() * 90000000)`; `none` when the list of draws
runs out before a fresh id is found. -/
def generateUniqueId (m : Store) : List Nat → Option String
  | [] => none
  | r :: rest =>
    let id := Nat.repr (10000000 + r)
    if mapHas m id then generateUniqueId m rest else some id

/-- `createReminder(message, time)`: generate a fresh id, insert the new
reminder with `completed = false`, persist, and return the message
`` `Reminder created with ID: ${id}` ``. -/
def createReminder (s : ReminderDatabase) (message time : String) (draws : List Nat) :
    Option (String × ReminderDatabase) :=
  match generateUniqueId s.reminders draws with
  | none => none
  | some id =>
    let s' := saveToFile
      { s with reminders := mapSet s.reminders id ⟨id, message, time, false⟩ }
    some ("Reminder created with ID: " ++ id, s')

/-- `markReminderAsCompleted(id)`. -/
def markReminderAsCompleted (s : ReminderDatabase) (id : String) :
    String × ReminderDatabase :=
  if mapHas s.reminders id then
    let s' := saveToFile
      { s with reminders := mapModify s.reminders id (fun r => { r with completed := true }) }
    ("Reminder " ++ id ++ " marked as completed.", s')
  else ("Reminder " ++ id ++ " not found.", s)

/-- `unmarkReminderAsCompleted(id)`. -/
def unmarkReminderAsCompleted (s : ReminderDatabase) (id : String) :
    String × ReminderDatabase :=
  if mapHas s.reminders id then
    let s' := saveToFile
      { s with reminders := mapModify s.reminders id (fun r => { r with completed := false }) }
    ("Reminder " ++ id ++ " unmarked as completed.", s')
  else ("Reminder " ++ id ++ " not found.", s)

/-- `getAllReminders()`: `Array.from(reminders.values())`. -/
def getAllReminders (s : ReminderDatabase) : List Reminder :=
  mapValues s.reminders

/-- `getReminder(id)`: `reminders.get(id) || null`. -/
def getReminder (s : ReminderDatabase) (id : String) : Option Reminder :=
  mapGet s.reminders id

/-- `getAllRemindersMarkedAsCompleted()`. -/
def getAllRemindersMarkedAsCompleted (s : ReminderDatabase) : List Reminder :=
  (mapValues s.reminders).filter (fun r => r.completed)

/-- `getAllRemindersNotMarkedAsCompleted()`. -/
def getAllRemindersNotMarkedAsCompleted (s : ReminderDatabase) : List Reminder :=
  (mapValues s.reminders).filter (fun r => !r.completed)

/-- A calendar date, the day-granularity view moment uses for
`isSameOrBefore(today, "day")`. -/
structure CalDate where
  year : Nat
  month : Nat
  day : Nat
deriving DecidableEq, Repr

/-- Day-granularity `isSameOrBefore`. -/
def dateLe (a b : CalDate) : Bool :=
  if a.year < b.year then true
  else if b.year < a.year then false
  else if a.month < b.month then true
  else if b.month < a.month then false
  else decide (a.day ≤ b.day)

/-- `getAllRemindersDueByToday()`: keep the reminders whose `time` moment can
parse (`parse` is the moment parser; `none` = invalid date, and every
comparison on an invalid moment is `false`) and whose date is on or before
`today` (= `moment().format("YYYY-MM-DD")`). -/
def getAllRemindersDueByToday (parse : String → Option CalDate) (today : CalDate)
    (s : ReminderDatabase) : List Reminder :=
  (mapValues s.reminders).filter (fun r =>
    match parse r.time with
    | some d => dateLe d today
    | none => false)

/-- The numeric value of a decimal digit character. -/
def digitVal (c : Char) : Nat := c.toNat - 48

/-- Concrete moment parser instance for the documented `YYYY-MM-DD HH:mm`
shaped inputs (moment parses them as ISO dates): read the leading
`YYYY-MM-DD` and fail on anything else. -/
def parseYMD (t : String) : Option CalDate :=
  match t.data with
  | y1 :: y2 :: y3 :: y4 :: c1 :: m1 :: m2 :: c2 :: d1 :: d2 :: _ =>
    if y1.isDigit && y2.isDigit && y3.isDigit && y4.isDigit && (c1 == '-') &&
        m1.isDigit && m2.isDigit && (c2 == '-') && d1.isDigit && d2.isDigit then
      some ⟨((digitVal y1 * 10 + digitVal y2) * 10 + digitVal y3) * 10 + digitVal y4,
            digitVal m1 * 10 + digitVal m2,
            digitVal d1 * 10 + digitVal d2⟩
    else none
  | _ => none

/-- `updateReminder`'s effect on the one fetched record: `if (message)
reminder.message = message; if (time) reminder.time = time;` — in JS the
empty string is falsy, so an omitted (`none`) or empty new value leaves the
field unchanged. -/
def applyUpdate (r : Reminder) (message time : Option String) : Reminder :=
  let r1 := match message with
    | some m => if m == "" then r else { r with message := m }
    | none => r
  match time with
  | some t => if t == "" then r1 else { r1 with time := t }
  | none => r1

/-- `updateReminder(id, message?, time?)`. -/
def updateReminder (s : ReminderDatabase) (id : String) (message time : Option String) :
    String × ReminderDatabase :=
  if mapHas s.reminders id then
    let s' := saveToFile
      { s with reminders := mapModify s.reminders id (fun r => applyUpdate r message time) }
    ("Reminder " ++ id ++ " updated.", s')
  else ("Reminder " ++ id ++ " not found.", s)

/-- `removeReminder(id)`: `reminders.delete(id)` reports whether the key was
present; absent ids report not-found and save nothing. -/
def removeReminder (s : ReminderDatabase) (id : String) : String × ReminderDatabase :=
  if mapHas s.reminders id then
    let s' := saveToFile { s with reminders := mapDelete s.reminders id }
    ("Reminder " ++ id ++ " deleted.", s')
  else ("Reminder " ++ id ++ " not found.", s)

/-- One call of the interactive loop into the store, as far as the store's
state is concerned. Query methods contain no assignment and no
`saveToFile` call in the source, so their cases leave the state as is. -/
inductive Op where
  | create (message time : String) (draws : List Nat)
  | mark (id : String)
  | unmark (id : String)
  | update (id : String) (message time : Option String)
  | remove (id : String)
  | getAll
  | getOne (id : String)
  | listCompleted
  | listPending
  | listDue (parse : String → Option CalDate) (today : CalDate)

/-- State effect of one operation (`none` only when `createReminder` runs out
of random draws). -/
def applyOp : Op → ReminderDatabase → Option ReminderDatabase
  | .create message time draws, s => (createReminder s message time draws).map Prod.snd
  | .mark id, s => some (markReminderAsCompleted s id).2
  | .unmark id, s => some (unmarkReminderAsCompleted s id).2
  | .update id message time, s => some (updateReminder s id message time).2
  | .remove id, s => some (removeReminder s id).2
  | .getAll, s => some s
  | .getOne _, s => some s
  | .listCompleted, s => some s
  | .listPending, s => some s
  | .listDue _ _, s => some s

/-- States reachable from a fresh store (no pre-existing file) by sequences
of store operations. -/
inductive Reachable : ReminderDatabase → Prop where
  | init : Reachable ⟨[], none⟩
  | step {s s' : ReminderDatabase} (op : Op) :
      Reachable s → applyOp op s = some s' → Reachable s'

/-- The keys of the map, in insertion order. -/
def storeKeys (m : Store) : List String :=
  m.map Prod.fst

/-- The spec §3 invariant: every key equals the `id` field of its mapped
Reminder. -/
def KeyInv (m : Store) : Prop :=
  ∀ p ∈ m, (Prod.snd p).id = p.1

/-- Every state the program can be in: keys are pairwise distinct (a `Map`
guarantee), every key equals its record's `id` field, and reading the backing
file back gives exactly the in-memory map. -/
def GoodState (s : ReminderDatabase) : Prop :=
  (storeKeys s.reminders).Nodup ∧ KeyInv s.reminders ∧
    loadFromFile s.file = s.reminders

/-- A reminder dated the day before `dateToday`. -/
def reminderYesterday : Reminder := ⟨"10000001", "past", "2024-05-14 09:00", false⟩

/-- A reminder dated the day after `dateToday`. -/
def reminderTomorrow : Reminder := ⟨"10000002", "future", "2024-05-16 09:00", false⟩

/-- A store holding exactly one yesterday-dated and one tomorrow-dated reminder. -/
def dbYesterdayTomorrow : ReminderDatabase :=
  ⟨[("10000001", reminderYesterday), ("10000002", reminderTomorrow)], none⟩

/-- The test's current local calendar date. -/
def dateToday : CalDate := ⟨2024, 5, 15⟩

/-! ### Map lemmas -/

theorem ite_of_true {α : Sort u} (a b : α) : (if true = true then a else b) = a := rfl

theorem ite_of_false {α : Sort u} (a b : α) : (if false = true then a else b) = b := rfl

theorem mapHas_cons (p : String × Reminder) (m : Store) (k : String) :
    mapHas (p :: m) k = ((p.1 == k) || mapHas m k) := by
  simp [mapHas]

theorem mapGet_cons_pos {p : String × Reminder} {m : Store} {k : String}
    (h : (p.1 == k) = true) : mapGet (p :: m) k = some p.2 := by
  simp [mapGet, List.find?_cons, h]

theorem mapGet_cons_neg {p : String × Reminder} {m : Store} {k : String}
    (h : (p.1 == k) = false) : mapGet (p :: m) k = mapGet m k := by
  simp [mapGet, List.find?_cons, h]

theorem mapHas_iff_mem_storeKeys (m : Store) (k : String) :
    mapHas m k = true ↔ k ∈ storeKeys m := by
  simp [mapHas, storeKeys, List.any_eq_true, List.mem_map, beq_iff_eq]

theorem mapGet_isSome_iff_mapHas (m : Store) (k : String) :
    (mapGet m k).isSome = mapHas m k := by
  induction m with
  | nil => rfl
  | cons p m ih =>
    rw [mapHas_cons]
    cases hp : (p.1 == k) with
    | true => simp [mapGet_cons_pos hp]
    | false => simp [mapGet_cons_neg hp, ih]

theorem mapGet_mapSet_self (m : Store) (k : String) (v : Reminder) :
    mapGet (mapSet m k v) k = some v := by
  unfold mapSet
  by_cases h : mapHas m k = true
  · rw [if_pos h]
    induction m with
    | nil => simp [mapHas] at h
    | cons p m ih =>
      rw [List.map_cons]
      cases hp : (p.1 == k) with
      | true =>
        rw [ite_of_true]
        exact mapGet_cons_pos (p := (p.1, v)) hp
      | false =>
        rw [ite_of_false]
        rw [mapGet_cons_neg hp]
        rw [mapHas_cons, hp, Bool.false_or] at h
        exact ih h
  · rw [if_neg h]
    induction m with
    | nil => exact mapGet_cons_pos (by simp)
    | cons p m ih =>
      rw [mapHas_cons] at h
      have hp : (p.1 == k) = false := by
        cases hq : (p.1 == k)
        · rfl
        · rw [hq] at h; simp at h
      have hm : ¬ mapHas m k = true := by
        intro hc; rw [hp, Bool.false_or] at h; exact h hc
      rw [List.cons_append, mapGet_cons_neg hp]
      exact ih hm

theorem mapGet_mapSet_ne (m : Store) (k : String) (v : Reminder) (k' : String)
    (h : k' ≠ k) :
    mapGet (mapSet m k v) k' = mapGet m k' := by
  unfold mapSet
  by_cases hm : mapHas m k = true
  · rw [if_pos hm]
    clear hm
    induction m with
    | nil => rfl
    | cons p m ih =>
      rw [List.map_cons]
      cases hp : (p.1 == k) with
      | true =>
        rw [ite_of_true]
        have hpk' : (p.1 == k') = false := by
          have hpe : p.1 = k := by simpa using hp
          rw [hpe]
          simpa using fun hc => h hc.symm
        rw [mapGet_cons_neg (p := (p.1, v)) hpk', mapGet_cons_neg hpk']
        exact ih
      | false =>
        rw [ite_of_false]
        cases hq : (p.1 == k') with
        | true => rw [mapGet_cons_pos (p := p) hq, mapGet_cons_pos hq]
        | false => rw [mapGet_cons_neg (p := p) hq, mapGet_cons_neg hq]; exact ih
  · rw [if_neg hm]
    clear hm
    induction m with
    | nil =>
      rw [List.nil_append]
      exact mapGet_cons_neg (by simpa using fun hc => h hc.symm)
    | cons p m ih =>
      rw [List.cons_append]
      cases hq : (p.1 == k') with
      | true => rw [mapGet_cons_pos (p := p) hq, mapGet_cons_pos hq]
      | false => rw [mapGet_cons_neg (p := p) hq, mapGet_cons_neg hq]; exact ih

theorem mapGet_mapModify_self (m : Store) (k : String) (f : Reminder → Reminder) :
    mapGet (mapModify m k f) k = (mapGet m k).map f := by
  induction m with
  | nil => rfl
  | cons p m ih =>
    unfold mapModify
    rw [List.map_cons]
    cases hp : (p.1 == k) with
    | true =>
      rw [ite_of_true, mapGet_cons_pos (p := (p.1, f p.2)) hp, mapGet_cons_pos hp]
      rfl
    | false =>
      rw [ite_of_false, mapGet_cons_neg hp, mapGet_cons_neg hp]
      exact ih

theorem mapGet_mapModify_ne (m : Store) (k : String) (f : Reminder → Reminder)
    (k' : String) (h : k' ≠ k) :
    mapGet (mapModify m k f) k' = mapGet m k' := by
  induction m with
  | nil => rfl
  | cons p m ih =>
    unfold mapModify
    rw [List.map_cons]
    cases hp : (p.1 == k) with
    | true =>
      have hpk' : (p.1 == k') = false := by
        have hpe : p.1 = k := by simpa using hp
        rw [hpe]
        simpa using fun hc => h hc.symm
      rw [ite_of_true, mapGet_cons_neg (p := (p.1, f p.2)) hpk', mapGet_cons_neg hpk']
      exact ih
    | false =>
      rw [ite_of_false]
      cases hq : (p.1 == k') with
      | true => rw [mapGet_cons_pos (p := p) hq, mapGet_cons_pos hq]
      | false => rw [mapGet_cons_neg (p := p) hq, mapGet_cons_neg hq]; exact ih

theorem storeKeys_mapModify (m : Store) (k : String) (f : Reminder → Reminder) :
    storeKeys (mapModify m k f) = storeKeys m := by
  induction m with
  | nil => rfl
  | cons p m ih =>
    unfold mapModify
    rw [List.map_cons]
    cases hp : (p.1 == k) with
    | true =>
      rw [ite_of_true]
      unfold storeKeys at *
      rw [List.map_cons, List.map_cons]
      unfold mapModify at ih
      rw [ih]
    | false =>
      rw [ite_of_false]
      unfold storeKeys at *
      rw [List.map_cons, List.map_cons]
      unfold mapModify at ih
      rw [ih]

theorem mapHas_eq_of_storeKeys_eq {m m' : Store} (h : storeKeys m' = storeKeys m)
    (k : String) : mapHas m' k = mapHas m k := by
  cases hm : mapHas m k with
  | true =>
    rw [mapHas_iff_mem_storeKeys, h]
    exact (mapHas_iff_mem_storeKeys m k).mp hm
  | false =>
    cases hc : mapHas m' k with
    | false => rfl
    | true =>
      have hmem := (mapHas_iff_mem_storeKeys m' k).mp hc
      rw [h] at hmem
      rw [(mapHas_iff_mem_storeKeys m k).mpr hmem] at hm
      exact hm

theorem mapHas_mapModify (m : Store) (k : String) (f : Reminder → Reminder)
    (k' : String) : mapHas (mapModify m k f) k' = mapHas m k' :=
  mapHas_eq_of_storeKeys_eq (storeKeys_mapModify m k f) k'

theorem mapHas_mapDelete_self (m : Store) (k : String) :
    mapHas (mapDelete m k) k = false := by
  cases hc : mapHas (mapDelete m k) k with
  | false => rfl
  | true =>
    rcases (by simpa [mapHas, List.any_eq_true] using hc :
        ∃ p ∈ mapDelete m k, p.1 = k) with ⟨p, hp, hk⟩
    have h2 := (List.mem_filter.mp hp).2
    rw [hk] at h2
    simp at h2

/-! ### Key invariant and key uniqueness -/

theorem KeyInv_nil : KeyInv [] := by
  intro p hp
  cases hp

theorem KeyInv_mapSet {m : Store} (h : KeyInv m) {k : String} {v : Reminder}
    (hv : v.id = k) : KeyInv (mapSet m k v) := by
  intro p hp
  unfold mapSet at hp
  by_cases hm : mapHas m k = true
  · rw [if_pos hm] at hp
    rcases List.mem_map.mp hp with ⟨q, hq, hpq⟩
    cases hqk : (q.1 == k) with
    | true =>
      rw [if_pos hqk] at hpq
      subst hpq
      have : q.1 = k := by simpa using hqk
      rw [this]
      exact hv
    | false =>
      rw [if_neg (by simp [hqk])] at hpq
      subst hpq
      exact h q hq
  · rw [if_neg hm] at hp
    rcases List.mem_append.mp hp with hp | hp
    · exact h p hp
    · have : p = (k, v) := by simpa using hp
      subst this
      exact hv

theorem KeyInv_mapModify {m : Store} (h : KeyInv m) {k : String}
    {f : Reminder → Reminder} (hf : ∀ r, (f r).id = r.id) :
    KeyInv (mapModify m k f) := by
  intro p hp
  unfold mapModify at hp
  rcases List.mem_map.mp hp with ⟨q, hq, hpq⟩
  cases hqk : (q.1 == k) with
  | true =>
    rw [if_pos hqk] at hpq
    subst hpq
    show (f q.2).id = q.1
    rw [hf q.2]
    exact h q hq
  | false =>
    rw [if_neg (by simp [hqk])] at hpq
    subst hpq
    exact h q hq

theorem KeyInv_mapDelete {m : Store} (h : KeyInv m) (k : String) :
    KeyInv (mapDelete m k) := fun p hp => h p (List.mem_filter.mp hp).1

theorem storeKeys_mapSet_has (m : Store) (k : String) (v : Reminder)
    (hm : mapHas m k = true) : storeKeys (mapSet m k v) = storeKeys m := by
  unfold mapSet
  rw [if_pos hm]
  clear hm
  induction m with
  | nil => rfl
  | cons p m ih =>
    rw [List.map_cons]
    cases hp : (p.1 == k) with
    | true =>
      rw [ite_of_true]
      unfold storeKeys
      rw [List.map_cons, List.map_cons]
      unfold storeKeys at ih
      rw [ih]
    | false =>
      rw [ite_of_false]
      unfold storeKeys
      rw [List.map_cons, List.map_cons]
      unfold storeKeys at ih
      rw [ih]

theorem mapHas_append (m1 m2 : Store) (k : String) :
    mapHas (m1 ++ m2) k = (mapHas m1 k || mapHas m2 k) := by
  simp [mapHas]

theorem nodup_storeKeys_mapSet {m : Store} (h : (storeKeys m).Nodup)
    (k : String) (v : Reminder) : (storeKeys (mapSet m k v)).Nodup := by
  by_cases hm : mapHas m k = true
  · rw [storeKeys_mapSet_has m k v hm]
    exact h
  · unfold mapSet
    rw [if_neg hm]
    have heq : storeKeys (m ++ [(k, v)]) = storeKeys m ++ [k] := by
      simp [storeKeys]
    rw [heq]
    refine List.Nodup.append h (List.nodup_singleton k) ?_
    intro a ha hb
    have hak : a = k := by simpa using hb
    subst hak
    exact hm ((mapHas_iff_mem_storeKeys m a).mpr ha)

theorem nodup_storeKeys_mapModify {m : Store} (h : (storeKeys m).Nodup)
    (k : String) (f : Reminder → Reminder) :
    (storeKeys (mapModify m k f)).Nodup := by
  rw [storeKeys_mapModify]
  exact h

theorem nodup_storeKeys_mapDelete {m : Store} (h : (storeKeys m).Nodup)
    (k : String) : (storeKeys (mapDelete m k)).Nodup := by
  have hsub : (mapDelete m k).Sublist m := List.filter_sublist m
  exact List.Nodup.sublist (List.Sublist.map Prod.fst hsub) h

theorem foldl_mapSet_fresh (data : List (String × Reminder)) :
    ∀ acc : Store, (∀ p ∈ data, mapHas acc p.1 = false) → (storeKeys data).Nodup →
      data.foldl (fun m p => mapSet m p.1 p.2) acc = acc ++ data := by
  induction data with
  | nil =>
    intro acc _ _
    rw [List.foldl_nil, List.append_nil]
  | cons p data ih =>
    intro acc hfresh hnodup
    rw [List.foldl_cons]
    have hp : mapHas acc p.1 = false := hfresh p (List.mem_cons_self p data)
    have hset : mapSet acc p.1 p.2 = acc ++ [p] := by
      unfold mapSet
      rw [if_neg (by simp [hp])]
    rw [hset]
    have hnd : (p.1 :: storeKeys data).Nodup := hnodup
    have h1 : ∀ q ∈ data, mapHas (acc ++ [p]) q.1 = false := by
      intro q hq
      rw [mapHas_append]
      have hq1 : mapHas acc q.1 = false := hfresh q (List.mem_cons_of_mem p hq)
      have hne : p.1 ≠ q.1 := by
        intro he
        exact (List.nodup_cons.mp hnd).1 (he ▸ List.mem_map.mpr ⟨q, hq, rfl⟩)
      have hq2 : mapHas [p] q.1 = false := by
        simp only [mapHas, List.any_cons, List.any_nil, Bool.or_false]
        simpa using hne
      rw [hq1, hq2]
      rfl
    rw [ih (acc ++ [p]) h1 (List.nodup_cons.mp hnd).2, List.append_assoc]
    rfl

theorem mapOfEntries_self (m : Store) (h : (storeKeys m).Nodup) :
    mapOfEntries m = m := by
  unfold mapOfEntries
  rw [foldl_mapSet_fresh m [] (fun p _ => rfl) h, List.nil_append]

/-! ### The invariant of reachable states -/

theorem goodState_save {m : Store} (s : ReminderDatabase)
    (hnd : (storeKeys m).Nodup) (hk : KeyInv m) :
    GoodState (saveToFile { s with reminders := m }) := by
  refine ⟨hnd, hk, ?_⟩
  show loadFromFile (some m) = m
  simpa [loadFromFile] using mapOfEntries_self m hnd

theorem applyUpdate_id (r : Reminder) (a b : Option String) :
    (applyUpdate r a b).id = r.id := by
  unfold applyUpdate
  cases a <;> cases b <;> dsimp only <;> (try split) <;> (try split) <;> rfl

theorem applyUpdate_completed (r : Reminder) (a b : Option String) :
    (applyUpdate r a b).completed = r.completed := by
  unfold applyUpdate
  cases a <;> cases b <;> dsimp only <;> (try split) <;> (try split) <;> rfl

theorem applyOp_goodState {s s' : ReminderDatabase} (op : Op) (h : GoodState s)
    (hst : applyOp op s = some s') : GoodState s' := by
  obtain ⟨hnd, hk, hld⟩ := h
  cases op with
  | create message time draws =>
    simp only [applyOp, createReminder] at hst
    cases hg : generateUniqueId s.reminders draws with
    | none => rw [hg] at hst; simp at hst
    | some id =>
      rw [hg] at hst
      simp only [Option.map_some'] at hst
      injection hst with hst'
      rw [← hst']
      exact goodState_save s (nodup_storeKeys_mapSet hnd id _) (KeyInv_mapSet hk rfl)
  | mark id =>
    simp only [applyOp, Option.some_inj] at hst
    rw [← hst]
    unfold markReminderAsCompleted
    by_cases hhas : mapHas s.reminders id = true
    · rw [if_pos hhas]
      exact goodState_save s (nodup_storeKeys_mapModify hnd id _)
        (KeyInv_mapModify hk fun r => rfl)
    · rw [if_neg hhas]
      exact ⟨hnd, hk, hld⟩
  | unmark id =>
    simp only [applyOp, Option.some_inj] at hst
    rw [← hst]
    unfold unmarkReminderAsCompleted
    by_cases hhas : mapHas s.reminders id = true
    · rw [if_pos hhas]
      exact goodState_save s (nodup_storeKeys_mapModify hnd id _)
        (KeyInv_mapModify hk fun r => rfl)
    · rw [if_neg hhas]
      exact ⟨hnd, hk, hld⟩
  | update id message time =>
    simp only [applyOp, Option.some_inj] at hst
    rw [← hst]
    unfold updateReminder
    by_cases hhas : mapHas s.reminders id = true
    · rw [if_pos hhas]
      exact goodState_save s (nodup_storeKeys_mapModify hnd id _)
        (KeyInv_mapModify hk fun r => applyUpdate_id r message time)
    · rw [if_neg hhas]
      exact ⟨hnd, hk, hld⟩
  | remove id =>
    simp only [applyOp, Option.some_inj] at hst
    rw [← hst]
    unfold removeReminder
    by_cases hhas : mapHas s.reminders id = true
    · rw [if_pos hhas]
      exact goodState_save s (nodup_storeKeys_mapDelete hnd id)
        (KeyInv_mapDelete hk id)
    · rw [if_neg hhas]
      exact ⟨hnd, hk, hld⟩
  | getAll =>
    simp only [applyOp, Option.some_inj] at hst
    rw [← hst]
    exact ⟨hnd, hk, hld⟩
  | getOne id =>
    simp only [applyOp, Option.some_inj] at hst
    rw [← hst]
    exact ⟨hnd, hk, hld⟩
  | listCompleted =>
    simp only [applyOp, Option.some_inj] at hst
    rw [← hst]
    exact ⟨hnd, hk, hld⟩
  | listPending =>
    simp only [applyOp, Option.some_inj] at hst
    rw [← hst]
    exact ⟨hnd, hk, hld⟩
  | listDue parse today =>
    simp only [applyOp, Option.some_inj] at hst
    rw [← hst]
    exact ⟨hnd, hk, hld⟩

theorem reachable_goodState {s : ReminderDatabase} (h : Reachable s) :
    GoodState s := by
  induction h with
  | init => exact ⟨List.nodup_nil, KeyInv_nil, rfl⟩
  | step op hr hop ih => exact applyOp_goodState op ih hop

/-! ### Decimal representation of generated ids -/

theorem toDigitsCore_eq_digits (b : Nat) (hb : 1 < b) :
    ∀ (fuel n : Nat) (acc : List Char), n ≠ 0 → n < fuel →
      Nat.toDigitsCore b fuel n acc =
        ((Nat.digits b n).map Nat.digitChar).reverse ++ acc := by
  intro fuel
  induction fuel with
  | zero =>
    intro n acc h0 hlt
    omega
  | succ fuel ih =>
    intro n acc h0 hlt
    have hnpos : 0 < n := Nat.pos_of_ne_zero h0
    simp only [Nat.toDigitsCore]
    by_cases hdiv : n / b = 0
    · rw [if_pos hdiv]
      rw [Nat.digits_def' hb hnpos, hdiv, Nat.digits_zero]
      rfl
    · rw [if_neg hdiv]
      have hfuel : n / b < fuel := by
        have := Nat.div_lt_self hnpos hb
        omega
      rw [ih (n / b) (Nat.digitChar (n % b) :: acc) hdiv hfuel]
      rw [Nat.digits_def' hb hnpos]
      simp [List.reverse_cons, List.append_assoc]

theorem repr_eq_of_ne_zero (n : Nat) (h0 : n ≠ 0) :
    Nat.repr n = (((Nat.digits 10 n).map Nat.digitChar).reverse).asString := by
  show (Nat.toDigits 10 n).asString = _
  unfold Nat.toDigits
  rw [toDigitsCore_eq_digits 10 (by norm_num) (n + 1) n [] h0 (Nat.lt_succ_self n),
    List.append_nil]

theorem length_asString (l : List Char) : (List.asString l).length = l.length := rfl

theorem data_asString (l : List Char) : (List.asString l).data = l := rfl

theorem repr_length_of_range {n : Nat} (h1 : 10000000 ≤ n) (h2 : n ≤ 99999999) :
    (Nat.repr n).length = 8 := by
  rw [repr_eq_of_ne_zero n (by omega), length_asString, List.length_reverse,
    List.length_map]
  rw [Nat.digits_len 10 n (by norm_num) (by omega)]
  have hlog : Nat.log 10 n = 7 := by
    apply Nat.log_eq_of_pow_le_of_lt_pow
    · show 10 ^ 7 ≤ n
      norm_num
      omega
    · show n < 10 ^ 8
      norm_num
      omega
  rw [hlog]

theorem digitChar_isDigit {d : Nat} (h : d < 10) : (Nat.digitChar d).isDigit = true := by
  interval_cases d <;> decide

theorem repr_chars_isDigit {n : Nat} (h0 : n ≠ 0) :
    ∀ c ∈ (Nat.repr n).data, c.isDigit = true := by
  rw [repr_eq_of_ne_zero n h0, data_asString]
  intro c hc
  rcases List.mem_map.mp (List.mem_reverse.mp hc) with ⟨d, hd, rfl⟩
  exact digitChar_isDigit (Nat.digits_lt_base (by norm_num) hd)

theorem generateUniqueId_spec (m : Store) :
    ∀ (draws : List Nat) (id : String), generateUniqueId m draws = some id →
      mapHas m id = false ∧ ∃ r ∈ draws, id = Nat.repr (10000000 + r) := by
  intro draws
  induction draws with
  | nil =>
    intro id h
    simp [generateUniqueId] at h
  | cons r rest ih =>
    intro id h
    simp only [generateUniqueId] at h
    by_cases hh : mapHas m (Nat.repr (10000000 + r)) = true
    · rw [if_pos hh] at h
      rcases ih id h with ⟨h1, rr, hrr, he⟩
      exact ⟨h1, rr, List.mem_cons_of_mem r hrr, he⟩
    · rw [if_neg hh] at h
      injection h with h
      subst h
      exact ⟨by simpa using hh, r, List.mem_cons_self r rest, rfl⟩

/-! ### Claims -/

/-- C1, counterexample: `createReminder` does not return the freshly
generated 8-digit id itself. On the empty store with the single random draw
`0` the generated id is `"10000000"`, but the operation's return value is
the message `"Reminder created with ID: 10000000"`, which is not the id. -/
theorem createReminder_not_bare_id :
    generateUniqueId ([] : Store) [0] = some "10000000" ∧
      (createReminder ⟨[], none⟩ "buy milk" "2024-01-01 10:00" [0]).map Prod.fst =
        some "Reminder created with ID: 10000000" ∧
      (createReminder ⟨[], none⟩ "buy milk" "2024-01-01 10:00" [0]).map Prod.fst ≠
        some "10000000" := by
  refine ⟨rfl, rfl, ?_⟩
  decide

/-- C1 as amended: for every message, time and draw sequence, a successful
`createReminder` returns the string `"Reminder created with ID: " ++ id`
where `id` is the freshly generated 8-digit id (the id is embedded in the
returned message, not returned bare). -/
theorem createReminder_returns_creation_message (s : ReminderDatabase)
    (message time : String) (draws : List Nat) (res : String)
    (t : ReminderDatabase)
    (h : createReminder s message time draws = some (res, t)) :
    ∃ id, generateUniqueId s.reminders draws = some id ∧
      res = "Reminder created with ID: " ++ id := by
  unfold createReminder at h
  cases hg : generateUniqueId s.reminders draws with
  | none =>
    rw [hg] at h
    exact absurd h (by simp)
  | some id =>
    rw [hg] at h
    simp only [Option.some_inj] at h
    exact ⟨id, rfl, (congrArg Prod.fst h).symm⟩

/-- Witness for the amended C1 at a concrete input. -/
theorem createReminder_returns_creation_message_witness :
    ∃ id, generateUniqueId ([] : Store) [0] = some id ∧
      "Reminder created with ID: 10000000" = "Reminder created with ID: " ++ id :=
  createReminder_returns_creation_message ⟨[], none⟩ "buy milk" "2024-01-01 10:00" [0]
    "Reminder created with ID: 10000000"
    (saveToFile ⟨mapSet [] "10000000" ⟨"10000000", "buy milk", "2024-01-01 10:00", false⟩,
      none⟩)
    (by rfl)

/-- C2: after a successful `createReminder(message, time)` that generated the
id `id`, `getReminder id` returns a Reminder whose `message` and `time` are
the given strings verbatim and whose `completed` field is `false`. -/
theorem getReminder_after_createReminder (s : ReminderDatabase)
    (message time : String) (draws : List Nat) (id res : String)
    (t : ReminderDatabase)
    (hid : generateUniqueId s.reminders draws = some id)
    (h : createReminder s message time draws = some (res, t)) :
    getReminder t id = some ⟨id, message, time, false⟩ := by
  unfold createReminder at h
  rw [hid] at h
  simp only [Option.some_inj] at h
  have hs : saveToFile
      { s with reminders := mapSet s.reminders id ⟨id, message, time, false⟩ } = t :=
    congrArg Prod.snd h
  rw [← hs]
  show mapGet (mapSet s.reminders id ⟨id, message, time, false⟩) id = _
  exact mapGet_mapSet_self s.reminders id ⟨id, message, time, false⟩

/-- Witness for C2 at a concrete input. -/
theorem getReminder_after_createReminder_witness :
    getReminder
        (saveToFile ⟨mapSet [] "10000000"
          ⟨"10000000", "buy milk", "2024-01-01 10:00", false⟩, none⟩)
        "10000000" =
      some ⟨"10000000", "buy milk", "2024-01-01 10:00", false⟩ :=
  getReminder_after_createReminder ⟨[], none⟩ "buy milk" "2024-01-01 10:00" [0]
    "10000000" "Reminder created with ID: 10000000"
    (saveToFile ⟨mapSet [] "10000000"
      ⟨"10000000", "buy milk", "2024-01-01 10:00", false⟩, none⟩)
    (by rfl) (by rfl)

/-- C3: every id a successful `generateUniqueId` produces is the decimal
string of an integer in [10000000, 99999999], is exactly 8 characters long,
consists only of digit characters, and does not collide with any key held in
the store at the moment of generation. (Each draw `r` models
`Math.floor(Math.random() * 90000000)`, hence `r < 90000000`.) -/
theorem generateUniqueId_fresh_8_digit (m : Store) (draws : List Nat) (id : String)
    (hdraws : ∀ r ∈ draws, r < 90000000)
    (h : generateUniqueId m draws = some id) :
    (∃ n : Nat, 10000000 ≤ n ∧ n ≤ 99999999 ∧ id = Nat.repr n) ∧
      id.length = 8 ∧ (∀ c ∈ id.data, c.isDigit = true) ∧ mapHas m id = false := by
  obtain ⟨hfresh, r, hr, hid⟩ := generateUniqueId_spec m draws id h
  have hrange := hdraws r hr
  subst hid
  refine ⟨⟨10000000 + r, by omega, by omega, rfl⟩, ?_, ?_, hfresh⟩
  · exact repr_length_of_range (by omega) (by omega)
  · exact repr_chars_isDigit (by omega)

/-- Witness for C3 at a concrete input. -/
theorem generateUniqueId_fresh_8_digit_witness :
    (∃ n : Nat, 10000000 ≤ n ∧ n ≤ 99999999 ∧ "10000000" = Nat.repr n) ∧
      ("10000000" : String).length = 8 ∧
      (∀ c ∈ ("10000000" : String).data, c.isDigit = true) ∧
      mapHas [] "10000000" = false :=
  generateUniqueId_fresh_8_digit [] [0] "10000000" (by decide) (by rfl)

/-- C4: in every state reached from a fresh store by any sequence of
successful operations, restarting the store against the same file (load the
saved entries back) reproduces the very same state, so `getAllReminders`
returns the same reminders — ids, fields and completion flags — in the same
order; equivalently the persisted state always reloads to the in-memory
state. -/
theorem persistence_round_trip (s : ReminderDatabase) (h : Reachable s) :
    restart s.file = s ∧ getAllReminders (restart s.file) = getAllReminders s := by
  obtain ⟨hnd, hk, hld⟩ := reachable_goodState h
  have h1 : restart s.file = s := by
    unfold restart
    rw [hld]
  exact ⟨h1, by rw [h1]⟩

/-- Witness for C4: the state after one `createReminder` on a fresh store. -/
theorem persistence_round_trip_witness :
    restart (ReminderDatabase.mk
        [("10000000", ⟨"10000000", "buy milk", "2024-01-01 10:00", false⟩)]
        (some [("10000000", ⟨"10000000", "buy milk", "2024-01-01 10:00", false⟩)])).file =
      ⟨[("10000000", ⟨"10000000", "buy milk", "2024-01-01 10:00", false⟩)],
        some [("10000000", ⟨"10000000", "buy milk", "2024-01-01 10:00", false⟩)]⟩ ∧
    getAllReminders (restart (ReminderDatabase.mk
        [("10000000", ⟨"10000000", "buy milk", "2024-01-01 10:00", false⟩)]
        (some [("10000000", ⟨"10000000", "buy milk", "2024-01-01 10:00", false⟩)])).file) =
      getAllReminders ⟨[("10000000", ⟨"10000000", "buy milk", "2024-01-01 10:00", false⟩)],
        some [("10000000", ⟨"10000000", "buy milk", "2024-01-01 10:00", false⟩)]⟩ :=
  persistence_round_trip _
    (Reachable.step (Op.create "buy milk" "2024-01-01 10:00" [0]) Reachable.init (by rfl))

/-- C9: in every reachable state every key of the mapping equals the `id`
field of the Reminder it maps to, and one further step of any operation
(create, update, mark, unmark, remove — or a query) preserves this. -/
theorem key_equals_id_invariant (s : ReminderDatabase) (h : Reachable s) :
    KeyInv s.reminders ∧
      ∀ (op : Op) (t : ReminderDatabase), applyOp op s = some t → KeyInv t.reminders := by
  have hg := reachable_goodState h
  exact ⟨hg.2.1, fun op t hop => (applyOp_goodState op hg hop).2.1⟩

/-- Witness for C9 at the initial state. -/
theorem key_equals_id_invariant_witness :
    KeyInv (ReminderDatabase.mk [] none).reminders ∧
      ∀ (op : Op) (t : ReminderDatabase),
        applyOp op ⟨[], none⟩ = some t → KeyInv t.reminders :=
  key_equals_id_invariant ⟨[], none⟩ Reachable.init

theorem mem_mapValues_of_mapGet {m : Store} {k : String} {v : Reminder}
    (h : mapGet m k = some v) : v ∈ mapValues m := by
  unfold mapGet at h
  cases hf : m.find? (fun p => p.1 == k) with
  | none => rw [hf] at h; cases h
  | some p =>
    rw [hf] at h
    injection h with h
    subst h
    exact List.mem_map.mpr ⟨p, List.mem_of_find?_eq_some hf, rfl⟩

theorem mapGet_id_of_KeyInv {m : Store} (hk : KeyInv m) {k : String} {v : Reminder}
    (h : mapGet m k = some v) : v.id = k := by
  unfold mapGet at h
  cases hf : m.find? (fun p => p.1 == k) with
  | none => rw [hf] at h; cases h
  | some p =>
    rw [hf] at h
    injection h with h
    subst h
    have h1 : p.1 = k := by simpa using List.find?_some hf
    rw [← h1]
    exact hk p (List.mem_of_find?_eq_some hf)

theorem mem_mapModify_key {m : Store} {k : String} {f : Reminder → Reminder}
    {p : String × Reminder} (hp : p ∈ mapModify m k f) (hpk : p.1 = k) :
    ∃ q ∈ m, q.1 = k ∧ p.2 = f q.2 := by
  unfold mapModify at hp
  rcases List.mem_map.mp hp with ⟨q, hq, hpq⟩
  cases hqk : (q.1 == k) with
  | true =>
    rw [if_pos hqk] at hpq
    subst hpq
    exact ⟨q, hq, by simpa using hqk, rfl⟩
  | false =>
    rw [if_neg (by simp [hqk])] at hpq
    subst hpq
    exact absurd hpk (by simpa using hqk)

theorem mapModify_completed_mem {m : Store} (hk : KeyInv m) {id : String}
    (hhas : mapHas m id = true) (b : Bool) :
    ∃ r ∈ mapValues (mapModify m id (fun r => { r with completed := b })),
      r.id = id ∧ r.completed = b := by
  obtain ⟨r, hr⟩ := Option.isSome_iff_exists.mp
    (by rw [mapGet_isSome_iff_mapHas]; exact hhas)
  have hget : mapGet (mapModify m id (fun r => { r with completed := b })) id =
      some { r with completed := b } := by
    rw [mapGet_mapModify_self, hr]
    rfl
  refine ⟨{ r with completed := b }, mem_mapValues_of_mapGet hget, ?_, rfl⟩
  show r.id = id
  exact mapGet_id_of_KeyInv hk hr

theorem mapModify_completed_all {m : Store} (hk : KeyInv m) {id : String} (b : Bool) :
    ∀ r ∈ mapValues (mapModify m id (fun r => { r with completed := b })),
      r.id = id → r.completed = b := by
  intro r hr hid
  rcases List.mem_map.mp hr with ⟨q, hq, hqr⟩
  have hinv := KeyInv_mapModify (f := fun r => { r with completed := b }) hk (fun x => rfl) q hq
  have hkey : q.1 = id := by rw [← hinv, hqr, hid]
  rcases mem_mapModify_key hq hkey with ⟨p, hp, hpk, hval⟩
  rw [← hqr, hval]

/-- C5: on any store state whose keys match their records' ids, for any id
present in the store, after `markReminderAsCompleted id` the completed list
contains the reminder with that id and the pending list does not; after a
subsequent `unmarkReminderAsCompleted id` the pending list contains it and
the completed list does not. -/
theorem mark_unmark_lists (s : ReminderDatabase) (id : String)
    (hk : KeyInv s.reminders) (hhas : mapHas s.reminders id = true) :
    (∃ r ∈ getAllRemindersMarkedAsCompleted (markReminderAsCompleted s id).2,
        r.id = id) ∧
    (∀ r ∈ getAllRemindersNotMarkedAsCompleted (markReminderAsCompleted s id).2,
        r.id ≠ id) ∧
    (∃ r ∈ getAllRemindersNotMarkedAsCompleted
        (unmarkReminderAsCompleted (markReminderAsCompleted s id).2 id).2, r.id = id) ∧
    (∀ r ∈ getAllRemindersMarkedAsCompleted
        (unmarkReminderAsCompleted (markReminderAsCompleted s id).2 id).2, r.id ≠ id) := by
  have hs1 : (markReminderAsCompleted s id).2 =
      saveToFile { s with reminders := mapModify s.reminders id (fun r => { r with completed := true }) } := by
    unfold markReminderAsCompleted
    rw [if_pos hhas]
  have hk1 : KeyInv (mapModify s.reminders id (fun r => { r with completed := true })) :=
    KeyInv_mapModify (f := fun r => { r with completed := true }) hk (fun x => rfl)
  have hhas1 : mapHas (mapModify s.reminders id
      (fun r => { r with completed := true })) id = true := by
    rw [mapHas_mapModify]
    exact hhas
  have hs2 : (unmarkReminderAsCompleted (markReminderAsCompleted s id).2 id).2 =
      saveToFile { (markReminderAsCompleted s id).2 with reminders := mapModify (mapModify s.reminders id (fun r => { r with completed := true })) id (fun r => { r with completed := false }) } := by
    unfold unmarkReminderAsCompleted
    rw [hs1]
    rw [if_pos (show mapHas (saveToFile { s with reminders := mapModify s.reminders id (fun r => { r with completed := true }) }).reminders id = true from hhas1)]
    rfl
  refine ⟨?_, ?_, ?_, ?_⟩
  · rcases mapModify_completed_mem hk hhas true with ⟨r, hmem, hid, hcomp⟩
    refine ⟨r, ?_, hid⟩
    rw [hs1]
    show r ∈ (mapValues (mapModify s.reminders id
      (fun r => { r with completed := true }))).filter (fun r => r.completed)
    exact List.mem_filter.mpr ⟨hmem, hcomp⟩
  · intro r hr
    rw [hs1] at hr
    have hr' : r ∈ (mapValues (mapModify s.reminders id
        (fun r => { r with completed := true }))).filter (fun r => !r.completed) := hr
    obtain ⟨hmem, hpend⟩ := List.mem_filter.mp hr'
    intro hid
    have hcomp := mapModify_completed_all hk true r hmem hid
    rw [hcomp] at hpend
    cases hpend
  · rcases mapModify_completed_mem hk1 hhas1 false with ⟨r, hmem, hid, hcomp⟩
    refine ⟨r, ?_, hid⟩
    rw [hs2]
    show r ∈ (mapValues (mapModify (mapModify s.reminders id
      (fun r => { r with completed := true })) id
      (fun r => { r with completed := false }))).filter (fun r => !r.completed)
    refine List.mem_filter.mpr ⟨hmem, ?_⟩
    rw [hcomp]
    rfl
  · intro r hr
    rw [hs2] at hr
    have hr' : r ∈ (mapValues (mapModify (mapModify s.reminders id
        (fun r => { r with completed := true })) id
        (fun r => { r with completed := false }))).filter (fun r => r.completed) := hr
    obtain ⟨hmem, hcompl⟩ := List.mem_filter.mp hr'
    intro hid
    have hcomp := mapModify_completed_all hk1 false r hmem hid
    rw [hcomp] at hcompl
    cases hcompl

/-- Witness for C5 at a concrete one-reminder store. -/
theorem mark_unmark_lists_witness :
    (∃ r ∈ getAllRemindersMarkedAsCompleted (markReminderAsCompleted
        ⟨[("10000001", ⟨"10000001", "a", "2024-01-01 10:00", false⟩)], none⟩
        "10000001").2, r.id = "10000001") ∧
    (∀ r ∈ getAllRemindersNotMarkedAsCompleted (markReminderAsCompleted
        ⟨[("10000001", ⟨"10000001", "a", "2024-01-01 10:00", false⟩)], none⟩
        "10000001").2, r.id ≠ "10000001") ∧
    (∃ r ∈ getAllRemindersNotMarkedAsCompleted (unmarkReminderAsCompleted
        (markReminderAsCompleted
          ⟨[("10000001", ⟨"10000001", "a", "2024-01-01 10:00", false⟩)], none⟩
          "10000001").2 "10000001").2, r.id = "10000001") ∧
    (∀ r ∈ getAllRemindersMarkedAsCompleted (unmarkReminderAsCompleted
        (markReminderAsCompleted
          ⟨[("10000001", ⟨"10000001", "a", "2024-01-01 10:00", false⟩)], none⟩
          "10000001").2 "10000001").2, r.id ≠ "10000001") :=
  mark_unmark_lists
    ⟨[("10000001", ⟨"10000001", "a", "2024-01-01 10:00", false⟩)], none⟩
    "10000001" (by unfold KeyInv; decide) (by rfl)

theorem applyUpdate_message_none (r : Reminder) (b : Option String) :
    (applyUpdate r none b).message = r.message := by
  unfold applyUpdate
  cases b <;> dsimp only <;> (try split) <;> rfl

theorem applyUpdate_message_empty (r : Reminder) (b : Option String) :
    (applyUpdate r (some "") b).message = r.message := by
  unfold applyUpdate
  dsimp only
  rw [if_pos (show (("" : String) == "") = true from rfl)]
  cases b <;> dsimp only <;> (try split) <;> rfl

theorem applyUpdate_message_set (r : Reminder) (b : Option String) (v : String)
    (hv : v ≠ "") : (applyUpdate r (some v) b).message = v := by
  unfold applyUpdate
  dsimp only
  rw [if_neg (show ¬ ((v == "") = true) from by simpa using hv)]
  cases b <;> dsimp only <;> (try split) <;> rfl

theorem applyUpdate_time_none (r : Reminder) (a : Option String) :
    (applyUpdate r a none).time = r.time := by
  unfold applyUpdate
  cases a <;> dsimp only <;> (try split) <;> rfl

theorem applyUpdate_time_empty (r : Reminder) (a : Option String) :
    (applyUpdate r a (some "")).time = r.time := by
  unfold applyUpdate
  cases a <;> dsimp only
  · rw [if_pos (show (("" : String) == "") = true from rfl)]
  · rw [if_pos (show (("" : String) == "") = true from rfl)]
    split <;> rfl

theorem applyUpdate_time_set (r : Reminder) (a : Option String) (v : String)
    (hv : v ≠ "") : (applyUpdate r a (some v)).time = v := by
  unfold applyUpdate
  cases a <;> dsimp only <;>
    rw [if_neg (show ¬ ((v == "") = true) from by simpa using hv)] <;>
    (try split) <;> rfl

/-- C6: for an id present in the store (mapped to `r`), `updateReminder`
stores exactly `applyUpdate r message time`: an omitted (`none`) or
empty-string message leaves the stored message unchanged, likewise for time,
a supplied non-empty value overwrites exactly that field, omitting both
leaves the Reminder byte-identical, the `id` and `completed` fields are
never touched, and every other key's reminder is unchanged. -/
theorem updateReminder_fields (s : ReminderDatabase) (id : String)
    (a b : Option String) (r : Reminder)
    (h : mapGet s.reminders id = some r) :
    mapGet ((updateReminder s id a b).2).reminders id = some (applyUpdate r a b) ∧
    ((a = none ∨ a = some "") → (applyUpdate r a b).message = r.message) ∧
    (∀ v, a = some v → v ≠ "" → (applyUpdate r a b).message = v) ∧
    ((b = none ∨ b = some "") → (applyUpdate r a b).time = r.time) ∧
    (∀ v, b = some v → v ≠ "" → (applyUpdate r a b).time = v) ∧
    (applyUpdate r a b).id = r.id ∧
    (applyUpdate r a b).completed = r.completed ∧
    (a = none → b = none → applyUpdate r a b = r) ∧
    (∀ k, k ≠ id →
      mapGet ((updateReminder s id a b).2).reminders k = mapGet s.reminders k) := by
  have hhas : mapHas s.reminders id = true := by
    rw [← mapGet_isSome_iff_mapHas, h]
    rfl
  have hs : (updateReminder s id a b).2 =
      saveToFile { s with reminders := mapModify s.reminders id (fun r => applyUpdate r a b) } := by
    unfold updateReminder
    rw [if_pos hhas]
  refine ⟨?_, ?_, ?_, ?_, ?_, applyUpdate_id r a b, applyUpdate_completed r a b, ?_, ?_⟩
  · rw [hs]
    show mapGet (mapModify s.reminders id (fun r => applyUpdate r a b)) id = _
    rw [mapGet_mapModify_self, h]
    rfl
  · rintro (rfl | rfl)
    · exact applyUpdate_message_none r b
    · exact applyUpdate_message_empty r b
  · rintro v rfl hv
    exact applyUpdate_message_set r b v hv
  · rintro (rfl | rfl)
    · exact applyUpdate_time_none r a
    · exact applyUpdate_time_empty r a
  · rintro v rfl hv
    exact applyUpdate_time_set r a v hv
  · rintro rfl rfl
    rfl
  · intro k hkid
    rw [hs]
    show mapGet (mapModify s.reminders id (fun r => applyUpdate r a b)) k = _
    exact mapGet_mapModify_ne s.reminders id _ k hkid

/-- Witness for C6 at a concrete input: update only the time. -/
theorem updateReminder_fields_witness :
    mapGet ((updateReminder
        ⟨[("10000002", ⟨"10000002", "msg", "2024-01-01 10:00", false⟩)], none⟩
        "10000002" none (some "2030-01-01 00:00")).2).reminders "10000002" =
      some (applyUpdate ⟨"10000002", "msg", "2024-01-01 10:00", false⟩ none
        (some "2030-01-01 00:00")) ∧
    (applyUpdate ⟨"10000002", "msg", "2024-01-01 10:00", false⟩ none
      (some "2030-01-01 00:00")).message = "msg" ∧
    (applyUpdate ⟨"10000002", "msg", "2024-01-01 10:00", false⟩ none
      (some "2030-01-01 00:00")).time = "2030-01-01 00:00" :=
  ⟨(updateReminder_fields
      ⟨[("10000002", ⟨"10000002", "msg", "2024-01-01 10:00", false⟩)], none⟩
      "10000002" none (some "2030-01-01 00:00")
      ⟨"10000002", "msg", "2024-01-01 10:00", false⟩ (by rfl)).1,
   (updateReminder_fields
      ⟨[("10000002", ⟨"10000002", "msg", "2024-01-01 10:00", false⟩)], none⟩
      "10000002" none (some "2030-01-01 00:00")
      ⟨"10000002", "msg", "2024-01-01 10:00", false⟩ (by rfl)).2.1 (Or.inl rfl),
   (updateReminder_fields
      ⟨[("10000002", ⟨"10000002", "msg", "2024-01-01 10:00", false⟩)], none⟩
      "10000002" none (some "2030-01-01 00:00")
      ⟨"10000002", "msg", "2024-01-01 10:00", false⟩ (by rfl)).2.2.2.2.1
      "2030-01-01 00:00" rfl (by decide)⟩

/-- C7: on an id not present in the store, each of mark, unmark, update and
remove returns the descriptive `"Reminder <id> not found."` message and
leaves the whole state (store and file) unchanged, `getReminder` returns
nothing, and removing the same id twice in a row returns not-found the
second time on any starting state. -/
theorem not_found_ops (s : ReminderDatabase) (id : String)
    (h : mapHas s.reminders id = false) :
    markReminderAsCompleted s id = ("Reminder " ++ id ++ " not found.", s) ∧
    unmarkReminderAsCompleted s id = ("Reminder " ++ id ++ " not found.", s) ∧
    (∀ a b, updateReminder s id a b = ("Reminder " ++ id ++ " not found.", s)) ∧
    removeReminder s id = ("Reminder " ++ id ++ " not found.", s) ∧
    getReminder s id = none ∧
    (∀ t : ReminderDatabase,
      (removeReminder (removeReminder t id).2 id).1 = "Reminder " ++ id ++ " not found.") := by
  have hnot : ¬ mapHas s.reminders id = true := by
    rw [h]
    simp
  refine ⟨?_, ?_, ?_, ?_, ?_, ?_⟩
  · unfold markReminderAsCompleted
    rw [if_neg hnot]
  · unfold unmarkReminderAsCompleted
    rw [if_neg hnot]
  · intro a b
    unfold updateReminder
    rw [if_neg hnot]
  · unfold removeReminder
    rw [if_neg hnot]
  · show mapGet s.reminders id = none
    have hiff := mapGet_isSome_iff_mapHas s.reminders id
    rw [h] at hiff
    cases hg : mapGet s.reminders id with
    | none => rfl
    | some v =>
      rw [hg] at hiff
      simp at hiff
  · intro t
    by_cases ht : mapHas t.reminders id = true
    · have h2 : (removeReminder t id).2 =
          saveToFile { t with reminders := mapDelete t.reminders id } := by
        unfold removeReminder
        rw [if_pos ht]
      have h3 : mapHas (saveToFile { t with reminders := mapDelete t.reminders id }).reminders
          id = false := mapHas_mapDelete_self t.reminders id
      rw [h2]
      unfold removeReminder
      rw [if_neg (show ¬ mapHas (saveToFile { t with reminders := mapDelete t.reminders id }).reminders id = true from by rw [h3]; simp)]
    · have h2 : (removeReminder t id).2 = t := by
        unfold removeReminder
        rw [if_neg ht]
      rw [h2]
      unfold removeReminder
      rw [if_neg ht]

/-- Witness for C7 at a concrete input. -/
theorem not_found_ops_witness :
    markReminderAsCompleted ⟨[], none⟩ "12345678" =
        ("Reminder " ++ "12345678" ++ " not found.", ⟨[], none⟩) ∧
    unmarkReminderAsCompleted ⟨[], none⟩ "12345678" =
        ("Reminder " ++ "12345678" ++ " not found.", ⟨[], none⟩) ∧
    (∀ a b, updateReminder ⟨[], none⟩ "12345678" a b =
        ("Reminder " ++ "12345678" ++ " not found.", ⟨[], none⟩)) ∧
    removeReminder ⟨[], none⟩ "12345678" =
        ("Reminder " ++ "12345678" ++ " not found.", ⟨[], none⟩) ∧
    getReminder ⟨[], none⟩ "12345678" = none ∧
    (∀ t : ReminderDatabase,
      (removeReminder (removeReminder t "12345678").2 "12345678").1 =
        "Reminder " ++ "12345678" ++ " not found.") :=
  not_found_ops ⟨[], none⟩ "12345678" (by rfl)

/-- C8: `getAllRemindersDueByToday` returns exactly the reminders whose time
string the date parser accepts with a date on or before today, at day
granularity; a reminder whose time fails to parse is excluded; and on the
concrete store holding one reminder dated yesterday and one dated tomorrow
it returns exactly the yesterday one. -/
theorem dueByToday_spec (parse : String → Option CalDate) (today : CalDate)
    (s : ReminderDatabase) (r : Reminder) :
    (r ∈ getAllRemindersDueByToday parse today s ↔
      r ∈ getAllReminders s ∧ ∃ d, parse r.time = some d ∧ dateLe d today = true) ∧
    (parse r.time = none → r ∉ getAllRemindersDueByToday parse today s) ∧
    getAllRemindersDueByToday parseYMD dateToday dbYesterdayTomorrow =
      [reminderYesterday] := by
  have hpred : ∀ x : Reminder,
      ((match parse x.time with
        | some d => dateLe d today
        | none => false) = true) ↔
        ∃ d, parse x.time = some d ∧ dateLe d today = true := by
    intro x
    cases hp : parse x.time with
    | none => simp
    | some d => simp
  refine ⟨?_, ?_, ?_⟩
  · unfold getAllRemindersDueByToday getAllReminders
    rw [List.mem_filter]
    constructor
    · rintro ⟨h1, h2⟩
      exact ⟨h1, (hpred r).mp h2⟩
    · rintro ⟨h1, h2⟩
      exact ⟨h1, (hpred r).mpr h2⟩
  · intro hp hmem
    unfold getAllRemindersDueByToday at hmem
    have h2 := (List.mem_filter.mp hmem).2
    rw [hp] at h2
    exact Bool.noConfusion h2
  · decide

/-- Witness for C8: the yesterday reminder is due, the tomorrow one is not. -/
theorem dueByToday_spec_witness :
    reminderYesterday ∈ getAllRemindersDueByToday parseYMD dateToday dbYesterdayTomorrow ∧
      reminderTomorrow ∉ getAllRemindersDueByToday parseYMD dateToday dbYesterdayTomorrow := by
  have h := dueByToday_spec parseYMD dateToday dbYesterdayTomorrow reminderYesterday
  rw [h.2.2]
  constructor
  · decide
  · decide

/-- C10: the completed and pending lists are the two filterings of
`getAllReminders` by the `completed` flag: each is a sublist of the full
list (so relative order is preserved), their lengths add up to the full
list's length, every listed reminder lands in exactly one of the two, and
the three query operations leave the store state and the persisted file
untouched. -/
theorem completed_pending_partition (s : ReminderDatabase) :
    getAllRemindersMarkedAsCompleted s =
        (getAllReminders s).filter (fun r => r.completed) ∧
    getAllRemindersNotMarkedAsCompleted s =
        (getAllReminders s).filter (fun r => !r.completed) ∧
    (getAllRemindersMarkedAsCompleted s).Sublist (getAllReminders s) ∧
    (getAllRemindersNotMarkedAsCompleted s).Sublist (getAllReminders s) ∧
    (getAllRemindersMarkedAsCompleted s).length +
        (getAllRemindersNotMarkedAsCompleted s).length =
      (getAllReminders s).length ∧
    (∀ r ∈ getAllReminders s,
      (r ∈ getAllRemindersMarkedAsCompleted s ∧
          r ∉ getAllRemindersNotMarkedAsCompleted s) ∨
      (r ∈ getAllRemindersNotMarkedAsCompleted s ∧
          r ∉ getAllRemindersMarkedAsCompleted s)) ∧
    applyOp Op.getAll s = some s ∧ applyOp Op.listCompleted s = some s ∧
    applyOp Op.listPending s = some s := by
  refine ⟨rfl, rfl, List.filter_sublist _, List.filter_sublist _, ?_, ?_, rfl, rfl, rfl⟩
  · exact (List.length_eq_length_filter_add (l := getAllReminders s) (fun r => r.completed)).symm
  · intro r hr
    cases hc : r.completed with
    | true =>
      left
      refine ⟨List.mem_filter.mpr ⟨hr, hc⟩, ?_⟩
      intro hcontra
      have hb := (List.mem_filter.mp hcontra).2
      rw [hc] at hb
      exact Bool.noConfusion hb
    | false =>
      right
      refine ⟨List.mem_filter.mpr ⟨hr, by rw [hc]; rfl⟩, ?_⟩
      intro hcontra
      have hb := (List.mem_filter.mp hcontra).2
      rw [hc] at hb
      exact Bool.noConfusion hb

/-- Witness for C10 at a concrete store. -/
theorem completed_pending_partition_witness :
    (⟨"10000003", "x", "2024-01-01 10:00", false⟩ ∈
        getAllRemindersMarkedAsCompleted
          ⟨[("10000003", ⟨"10000003", "x", "2024-01-01 10:00", false⟩)], none⟩ ∧
      ⟨"10000003", "x", "2024-01-01 10:00", false⟩ ∉
        getAllRemindersNotMarkedAsCompleted
          ⟨[("10000003", ⟨"10000003", "x", "2024-01-01 10:00", false⟩)], none⟩) ∨
    (⟨"10000003", "x", "2024-01-01 10:00", false⟩ ∈
        getAllRemindersNotMarkedAsCompleted
          ⟨[("10000003", ⟨"10000003", "x", "2024-01-01 10:00", false⟩)], none⟩ ∧
      ⟨"10000003", "x", "2024-01-01 10:00", false⟩ ∉
        getAllRemindersMarkedAsCompleted
          ⟨[("10000003", ⟨"10000003", "x", "2024-01-01 10:00", false⟩)], none⟩) :=
  (completed_pending_partition
      ⟨[("10000003", ⟨"10000003", "x", "2024-01-01 10:00", false⟩)], none⟩).2.2.2.2.2.1
    ⟨"10000003", "x", "2024-01-01 10:00", false⟩ (by decide)
